import Mathlib

/-!
Shallow embedding of the panel-version reconciliation and patient-history
core of the VIMMO service (src/vimmo/db/db_query.py, db_update.py,
db_downgrade.py and the reconciliation block of src/vimmo/API/endpoints.py).

Python dictionaries are modelled as association lists in insertion order
(`dlookup` is `d[k]` / `k in d`, `dictSet` is `d[k] = v`, `pyDict` builds a
dict from a stream of key-value pairs, later pairs overriding earlier ones).
The SQLite database is modelled as a record of tables (lists of rows); a
connection carries a committed snapshot and the pending state of the open
transaction: `commit` publishes the pending state, `rollback` discards it.
Each statement of the source mutates the pending state only.  SQL `NUMERIC`
version values are modelled as `Rat`; SQL `TEXT` dates compare under the
BINARY collation, modelled by byte-wise comparison `sqlTextLt`.
-/

namespace Vimmo

abbrev Gene := String

abbrev Conf := Int

/-- Gene-to-confidence mapping (a Python dict in insertion order). -/
abbrev GeneMap := List (Gene × Conf)

/-- Dictionary lookup `d[k]` (also `k in d` via `isSome`): first entry wins;
a `pyDict`-built list has unique keys so the choice is immaterial there. -/
def dlookup {β : Type} : List (Gene × β) → Gene → Option β
  | [], _ => none
  | p :: ps, g => if p.1 = g then some p.2 else dlookup ps g

/-- Key list of an association list (Python `d.keys()` in insertion order). -/
def keys {β : Type} (m : List (Gene × β)) : List Gene := m.map Prod.fst

/-- Python `d[k] = v`: overwrite in place if the key exists, else append. -/
def dictSet {β : Type} (d : List (Gene × β)) (k : Gene) (v : β) : List (Gene × β) :=
  if (dlookup d k).isSome then d.map (fun p => if p.1 = k then (k, v) else p)
  else d ++ [(k, v)]

/-- Build a Python dict from a stream of key-value pairs (comprehension or
repeated `.update`): later occurrences of a key override earlier ones. -/
def pyDict {β : Type} (l : List (Gene × β)) : List (Gene × β) :=
  l.foldl (fun d p => dictSet d p.1 p.2) []

/-- SQLite BINARY collation on TEXT values: byte-wise (here code-point-wise)
lexicographic comparison of the underlying character lists. -/
def charsLt : List Char → List Char → Bool
  | [], [] => false
  | [], _ :: _ => true
  | _ :: _, [] => false
  | a :: as, b :: bs =>
    if a.toNat < b.toNat then true else if b.toNat < a.toNat then false else charsLt as bs

/-- Comparison used by SQL `MAX` over a TEXT column. -/
def sqlTextLt (a b : String) : Bool := charsLt a.data b.data

/-- Comparison used by SQL `MAX` over a NUMERIC column. -/
def ratLtB (a b : Rat) : Bool := decide (a < b)

/-- SQL aggregate `MAX` over a column: `none` on the empty multiset
(SQL `NULL`), otherwise the greatest value under the comparison `lt`. -/
def sqlMaxBy {α : Type} (lt : α → α → Bool) : List α → Option α
  | [] => none
  | a :: as =>
    match sqlMaxBy lt as with
    | none => some a
    | some b => some (if lt b a then a else b)

/-- Errors raised by the Python code. -/
inductive PyErr where
  /-- An explicit `raise ValueError(...)`. -/
  | valueError (msg : String)
  /-- A generic `raise Exception(...)` or a propagated library exception
  (failed HTTP request, failed SQL statement). -/
  | exception (msg : String)
  /-- UnboundLocalError: a local variable read before any assignment. -/
  | unboundLocal
deriving DecidableEq, Repr

/-! Database rows and state.  Table `panel` is `{Panel_ID, rcodes, Version}`,
`panel_genes` is `{Panel_ID, HGNC_ID, Confidence}`, `panel_genes_archive`
adds the archived `Version`, and `patient_data` is the patient audit log.
`genes_info` is static reference data; only its join key `HGNC_ID` is ever
consumed by the modelled code, so the table is projected to that column. -/

structure PanelRow where
  panel_id : Int
  rcodes : String
  version : Rat
deriving DecidableEq, Repr

structure PGRow where
  panel_id : Int
  hgnc_id : Gene
  confidence : Conf
deriving DecidableEq, Repr

structure ArchRow where
  panel_id : Int
  hgnc_id : Gene
  version : Rat
  confidence : Conf
deriving DecidableEq, Repr

structure PatientRow where
  patient_id : String
  panel_id : Int
  rcode : String
  version : Rat
  date : String
deriving DecidableEq, Repr

structure DBState where
  panel : List PanelRow
  panel_genes : List PGRow
  panel_genes_archive : List ArchRow
  patient_data : List PatientRow
  genes_info : List Gene
deriving DecidableEq, Repr

/-- A SQLite connection: the durable committed snapshot plus the pending
state seen (and mutated) by statements of the open transaction. -/
structure Conn where
  committed : DBState
  pending : DBState
deriving DecidableEq, Repr

/-- Publish the pending state (`conn.commit()`). -/
def commit (c : Conn) : Conn := { c with committed := c.pending }

/-- Discard the pending state (`ROLLBACK`). -/
def rollback (c : Conn) : Conn := { c with pending := c.committed }

/-- Fresh connection on a database file holding state `s`. -/
def connOf (s : DBState) : Conn := ⟨s, s⟩

instance exceptDecidableEq {ε α : Type} [DecidableEq ε] [DecidableEq α] :
    DecidableEq (Except ε α) := fun a b =>
  match a, b with
  | .error x, .error y =>
    if h : x = y then .isTrue (congrArg Except.error h)
    else .isFalse (fun hh => h (Except.error.inj hh))
  | .ok x, .ok y =>
    if h : x = y then .isTrue (congrArg Except.ok h)
    else .isFalse (fun hh => h (Except.ok.inj hh))
  | .error _, .ok _ => .isFalse (fun hh => Except.noConfusion hh)
  | .ok _, .error _ => .isFalse (fun hh => Except.noConfusion hh)

namespace Query

/-- Query.get_db_latest_version (db_query.py 309-346): first `panel` row with
the given `rcodes`, projected to `Version`; `None` if the Rcode is unknown. -/
def get_db_latest_version (s : DBState) (rcode : String) : Option Rat :=
  ((s.panel.filter (fun r => decide (r.rcodes = rcode))).head?).map (fun r => r.version)

/-- Query.rcode_to_panelID (db_query.py 348-388). -/
def rcode_to_panelID (s : DBState) (rcode : String) : Option Int :=
  ((s.panel.filter (fun r => decide (r.rcodes = rcode))).head?).map (fun r => r.panel_id)

/-- Query.current_panel_contents (db_query.py 443-454): dict built row by row
from `panel_genes` restricted to the panel, `HGNC_ID -> Confidence`. -/
def current_panel_contents (s : DBState) (panelID : Int) : GeneMap :=
  pyDict ((s.panel_genes.filter (fun r => decide (r.panel_id = panelID))).map
    (fun r => (r.hgnc_id, r.confidence)))

/-- Query.historic_panel_retrieval (db_query.py 459-507): dict built row by
row from `panel_genes_archive` restricted to the panel and version. -/
def historic_panel_retrieval (s : DBState) (panelID : Int) (version : Rat) : GeneMap :=
  pyDict ((s.panel_genes_archive.filter
      (fun r => decide (r.panel_id = panelID ∧ r.version = version))).map
    (fun r => (r.hgnc_id, r.confidence)))

/-- Query.check_patient_history (db_query.py 250-307).  The SQL selects the
`Version` of a `patient_data` row whose `Date` equals the `MAX(Date)` of the
patient's rows for the Rcode and whose `Version` equals the `MAX(Version)`
among those rows carrying that maximal date; `fetchone` takes the first such
row.  A comparison against a `NULL` aggregate is false, so the result is
`None` exactly when no row matches. -/
def check_patient_history (s : DBState) (patient_id rcode : String) : Option Rat :=
  let maxdate := sqlMaxBy sqlTextLt
    ((s.patient_data.filter
        (fun r => decide (r.patient_id = patient_id ∧ r.rcode = rcode))).map
      (fun r => r.date))
  let maxver := sqlMaxBy ratLtB
    ((s.patient_data.filter
        (fun r => decide (r.patient_id = patient_id ∧ r.rcode = rcode ∧ some r.date = maxdate))).map
      (fun r => r.version))
  let rows := s.patient_data.filter
    (fun r => decide (some r.date = maxdate ∧ some r.version = maxver ∧
      r.patient_id = patient_id ∧ r.rcode = rcode))
  (rows.head?).map (fun r => r.version)

/-- Query.compare_panel_versions (db_query.py 509-536), verbatim: three
passes over the two dicts, collecting added genes with their new confidence,
removed genes with their old confidence, and genes present in both whose
confidence changed, paired as `(old, new)`. -/
def compare_panel_versions (historic_version current_version : GeneMap) :
    GeneMap × GeneMap × List (Gene × Conf × Conf) :=
  let genes_added := (keys current_version).filterMap (fun gene =>
    if (dlookup historic_version gene).isSome then none
    else (dlookup current_version gene).map (fun c => (gene, c)))
  let genes_removed := (keys historic_version).filterMap (fun gene =>
    if (dlookup current_version gene).isSome then none
    else (dlookup historic_version gene).map (fun c => (gene, c)))
  let conf_changes := (keys current_version).filterMap (fun hgnc =>
    match dlookup historic_version hgnc, dlookup current_version hgnc with
    | some oldc, some newc => if newc = oldc then none else some (hgnc, (oldc, newc))
    | _, _ => none)
  (genes_added, genes_removed, conf_changes)

/-- Result of Query.get_panel_data / get_panels_by_rcode projected to what
Query.get_gene_list consumes: either the `Associated Gene Records` list
(projected to the `HGNC_ID` column) or the not-found `Message` shape. -/
inductive PanelDataResult where
  | records (hgncs : List Gene)
  | noMatches
deriving DecidableEq, Repr

/-- Decimal character rendering of an integer, for the `LIKE '%id%'` path. -/
def intChars (n : Int) : List Char :=
  match n with
  | Int.ofNat m => Nat.toDigits 10 m
  | Int.negSucc m => '-' :: Nat.toDigits 10 (m + 1)

/-- Whether `pat` occurs as a contiguous run inside `hay` (SQL `LIKE '%p%'`). -/
def charsStartWith : List Char → List Char → Bool
  | _, [] => true
  | [], _ :: _ => false
  | a :: as, b :: bs => decide (a = b) && charsStartWith as bs

def charsContains : List Char → List Char → Bool
  | hay, pat =>
    if charsStartWith hay pat then true
    else match hay with
      | [] => pat.isEmpty
      | _ :: t => charsContains t pat

/-- Join of `panel`, `panel_genes` and `genes_info` projected to the
`HGNC_ID` column of the produced records, for panel rows satisfying `cond`. -/
def joinGeneRecords (s : DBState) (cond : PanelRow → Bool) : List Gene :=
  (s.panel.filter cond).flatMap (fun pr =>
    (s.panel_genes.filter (fun pg => decide (pg.panel_id = pr.panel_id))).filterMap
      (fun pg => if s.genes_info.contains pg.hgnc_id then some pg.hgnc_id else none))

/-- Query.get_panel_data (db_query.py 8-66): raises when `panel_id` is
`None`; exact match on `Panel_ID`, or `LIKE '%panel_id%'` on its decimal
rendering when `matches` is set; not-found message when the join is empty. -/
def get_panel_data (s : DBState) (panel_id : Option Int) (matchesArg : Bool) :
    Except PyErr PanelDataResult :=
  match panel_id with
  | none => .error (.valueError "Panel_ID must be provided.")
  | some pid =>
    let result :=
      if matchesArg then
        joinGeneRecords s (fun pr => charsContains (intChars pr.panel_id) (intChars pid))
      else
        joinGeneRecords s (fun pr => decide (pr.panel_id = pid))
    if result.isEmpty then .ok .noMatches else .ok (.records result)

/-- Query.get_panels_by_rcode (db_query.py 69-111), projected the same way. -/
def get_panels_by_rcode (s : DBState) (rcode : String) (matchesArg : Bool) :
    Except PyErr PanelDataResult :=
  let result :=
    if matchesArg then
      joinGeneRecords s (fun pr => charsContains pr.rcodes.data rcode.data)
    else
      joinGeneRecords s (fun pr => decide (pr.rcodes = rcode))
  if result.isEmpty then .ok .noMatches else .ok (.records result)

/-- Value returned by Query.get_gene_list: either the gene set (a Python
set, modelled as the deduplicated record list) or the propagated not-found
message structure. -/
inductive GeneListResult where
  | genes (gs : List Gene)
  | message
deriving DecidableEq, Repr

/-- Python truthiness of the optional numeric `panel_id` argument. -/
def truthyInt : Option Int → Bool
  | none => false
  | some n => decide (n ≠ 0)

/-- Python truthiness of the optional string `r_code` argument. -/
def truthyStr : Option String → Bool
  | none => false
  | some s => decide (s ≠ "")

/-- Query.get_gene_list (db_query.py 184-205): resolves through
`get_panel_data` when `panel_id` is truthy, else through
`get_panels_by_rcode` when `r_code` is truthy, propagating a `Message`
result unchanged and otherwise extracting the `HGNC_ID` set.  When neither
argument is truthy no branch assigns the local `gene_query`, and the
trailing `logger.debug(f"Gene list: {gene_query}")` raises
`UnboundLocalError`. -/
def get_gene_list (s : DBState) (panel_id : Option Int) (r_code : Option String)
    (matchesArg : Bool) : Except PyErr GeneListResult :=
  if truthyInt panel_id then
    match get_panel_data s panel_id matchesArg with
    | .error e => .error e
    | .ok .noMatches => .ok .message
    | .ok (.records rs) => .ok (.genes rs.dedup)
  else if truthyStr r_code then
    match get_panels_by_rcode s (r_code.getD "") matchesArg with
    | .error e => .error e
    | .ok .noMatches => .ok .message
    | .ok (.records rs) => .ok (.genes rs.dedup)
  else
    .error .unboundLocal

end Query

namespace Update

/-- Update.update_panels_version (db_update.py 47-58): `UPDATE panel SET
Panel_ID = ?, rcodes = ?, Version = ? WHERE Panel_ID = ? AND rcodes = ?`
followed by `conn.commit()`.  The Python method has no return statement, so
the caller receives `None` (here `Unit`) whether or not any row matched. -/
def update_panels_version (c : Conn) (rcode : String) (new_version : Rat)
    (panel_id : Int) : Conn × Unit :=
  let s := c.pending
  let s' := { s with panel := s.panel.map (fun r =>
    if r.panel_id = panel_id ∧ r.rcodes = rcode then
      { panel_id := panel_id, rcodes := rcode, version := new_version }
    else r) }
  (commit { c with pending := s' }, ())

/-- Update.archive_panel_contents (db_update.py 60-77): `INSERT INTO
panel_genes_archive SELECT pg.Panel_ID, pg.HGNC_ID, ?, pg.Confidence FROM
panel_genes pg WHERE pg.Panel_ID = ? AND NOT EXISTS (... same triple ...)`,
followed by `conn.commit()`. -/
def archive_panel_contents (c : Conn) (panel_id : Int) (archive_version : Rat) : Conn :=
  let s := c.pending
  let copied := (s.panel_genes.filter (fun pg =>
      decide (pg.panel_id = panel_id) &&
      !(s.panel_genes_archive.any (fun pga =>
        decide (pga.panel_id = pg.panel_id ∧ pga.hgnc_id = pg.hgnc_id ∧
          pga.version = archive_version))))).map
    (fun pg => ArchRow.mk pg.panel_id pg.hgnc_id archive_version pg.confidence)
  commit { c with pending :=
    { s with panel_genes_archive := s.panel_genes_archive ++ copied } }

/-- Update.update_gene_contents (db_update.py 79-99): first fetches the
registry's gene-to-confidence dict for the Rcode (`registry = none` models
the HTTP request raising, in which case no statement runs), then `DELETE
FROM panel_genes WHERE Panel_ID = ?`, inserts one row per dict entry, and
commits. -/
def update_gene_contents (c : Conn) (registry : Option GeneMap) (rcode : String)
    (panel_id : Int) : Except PyErr Conn :=
  match registry with
  | none => .error (.exception ("registry request failed for " ++ rcode))
  | some genes =>
    let s := c.pending
    let s1 := { s with panel_genes :=
      s.panel_genes.filter (fun pg => !decide (pg.panel_id = panel_id)) }
    let s2 := { s1 with panel_genes :=
      s1.panel_genes ++ genes.map (fun gc => PGRow.mk panel_id gc.1 gc.2) }
    .ok (commit { c with pending := s2 })

end Update

/-- The reconciliation block of PatientResource.get (endpoints.py 358-368),
entered when the stored database version differs from the registry's latest
version: `update.update_panels_version`, then `update.archive_panel_contents
(panel_id, database_version)`, then `update.update_gene_contents`, inside a
`try` whose `except` only sets the disclaimer `'Database update failed'`.
`panel_id` and `database_version` are the values the endpoint computed on
lines 346-347 before entering the block; the returned flag is `false`
exactly when the failure disclaimer is produced. -/
def reconcileSeq (c : Conn) (registry : Option GeneMap) (rcode : String)
    (latest_online_version : Rat) (panel_id : Int) (database_version : Rat) :
    Conn × Bool :=
  let c1 := (Update.update_panels_version c rcode latest_online_version panel_id).1
  let c2 := Update.archive_panel_contents c1 panel_id database_version
  match Update.update_gene_contents c2 registry rcode panel_id with
  | .ok c3 => (c3, true)
  | .error _ => (c2, false)

/-- Raw registry payload entry for the downgrade endpoint: an element of
`panel_records["genes"]`.  `gene_data_hgnc_id` is `some h` iff the entry has
a `"gene_data"` object containing `"hgnc_id" : h`; `confidence_level` is the
entry's confidence, absent when the key is missing. -/
structure RawGene where
  gene_data_hgnc_id : Option Gene
  confidence_level : Option Conf
deriving DecidableEq, Repr

namespace Downgrade

/-- Downgrade._get_current_genes (db_downgrade.py 15-23): same query and
dict construction as Query.current_panel_contents. -/
def get_current_genes (s : DBState) (panel_id : Int) : GeneMap :=
  pyDict ((s.panel_genes.filter (fun r => decide (r.panel_id = panel_id))).map
    (fun r => (r.hgnc_id, r.confidence)))

/-- Downgrade.change_panels_version (db_downgrade.py 25-37): `UPDATE panel
SET Version = ? WHERE Panel_ID = ? AND rcodes = ?` (no commit), raising
`ValueError` when `cursor.rowcount == 0`. -/
def change_panels_version (s : DBState) (rcode : String) (new_version : Rat)
    (panel_id : Int) : Except PyErr DBState :=
  let s' := { s with panel := s.panel.map (fun r =>
    if r.panel_id = panel_id ∧ r.rcodes = rcode then { r with version := new_version }
    else r) }
  if (s.panel.filter (fun r => decide (r.panel_id = panel_id ∧ r.rcodes = rcode))).length = 0
  then .error (.valueError "No matching record found")
  else .ok s'

/-- Downgrade._extract_genes_from_records (db_downgrade.py 40-53): collect
`(hgnc_id, int(confidence_level or 0))` for entries exposing a gene id. -/
def extract_genes_from_records (panel_records : List RawGene) : List (Gene × Conf) :=
  panel_records.filterMap (fun gene =>
    match gene.gene_data_hgnc_id with
    | some hgnc_id => some (hgnc_id, gene.confidence_level.getD 0)
    | none => none)

/-- The delta block of Downgrade.change_gene_contents (db_downgrade.py
83-96), factored out: `new_gene_dict` is the dict comprehension over the
extracted pairs, `added_genes` and `removed_genes` are key lists, and
`confidence_changes` records `(hgnc_id, old_confidence, new_confidence)` for
genes present in both dicts with differing confidence. -/
def gene_content_delta (current_genes : GeneMap) (new_genes : List (Gene × Conf)) :
    List Gene × List Gene × List (Gene × Conf × Conf) :=
  let new_gene_dict := pyDict new_genes
  let added_genes := (keys new_gene_dict).filter
    (fun hgnc_id => !(dlookup current_genes hgnc_id).isSome)
  let removed_genes := (keys current_genes).filter
    (fun hgnc_id => !(dlookup new_gene_dict hgnc_id).isSome)
  let confidence_changes := (keys current_genes).filterMap (fun hgnc_id =>
    match dlookup new_gene_dict hgnc_id, dlookup current_genes hgnc_id with
    | some newc, some oldc => if oldc = newc then none else some (hgnc_id, (oldc, newc))
    | _, _ => none)
  (added_genes, removed_genes, confidence_changes)

/-- Summary structure returned by Downgrade.change_gene_contents: the
"No changes detected between versions" message, or the recorded delta. -/
inductive GeneChanges where
  | noChanges
  | changes (added removed : List Gene) (confidence_changed : List (Gene × Conf × Conf))
deriving DecidableEq, Repr

/-- Downgrade.change_gene_contents (db_downgrade.py 60-126): computes the
delta against the current `panel_genes` contents; when the delta is empty it
returns the no-changes message without touching the table, otherwise it
deletes the panel's rows and reinserts `new_genes` wholesale.  `dbFail`
models the SQL statements of the rewrite raising (caught and re-raised as
`Exception` by the method). -/
def change_gene_contents (s : DBState) (dbFail : Bool) (panel_id : Int)
    (new_genes : List (Gene × Conf)) : Except PyErr (DBState × GeneChanges) :=
  let current_genes := get_current_genes s panel_id
  let d := gene_content_delta current_genes new_genes
  if d.1 = [] ∧ d.2.1 = [] ∧ d.2.2 = [] then
    .ok (s, .noChanges)
  else if dbFail then
    .error (.exception "Failed to update gene contents")
  else
    let s1 := { s with panel_genes :=
      s.panel_genes.filter (fun pg => !decide (pg.panel_id = panel_id)) }
    let s2 := { s1 with panel_genes :=
      s1.panel_genes ++ new_genes.map (fun gc => PGRow.mk panel_id gc.1 gc.2) }
    .ok (s2, .changes d.1 d.2.1 d.2.2)

/-- Response dictionary of Downgrade.process_downgrade. -/
structure DowngradeResult where
  panel_id : Int
  rcode : String
  previous_version : Option Rat
  new_version : Rat
  changes : GeneChanges
deriving DecidableEq, Repr

/-- Downgrade.process_downgrade (db_downgrade.py 130-168): `BEGIN
TRANSACTION`; read the current version; `change_panels_version`;
`_extract_genes_from_records`; `change_gene_contents`; `conn.commit()`.  Any
exception triggers `ROLLBACK` and re-raises, so the caller receives the
rolled-back connection together with the error. -/
def process_downgrade (c : Conn) (dbFail : Bool) (rcode : String) (panel_id : Int)
    (version : Rat) (panel_records : List RawGene) :
    Conn × Except PyErr DowngradeResult :=
  let current_version := Query.get_db_latest_version c.pending rcode
  match change_panels_version c.pending rcode version panel_id with
  | .error _ => (rollback c, .error (.exception "Failed to process downgrade"))
  | .ok s1 =>
    let new_genes := extract_genes_from_records panel_records
    match change_gene_contents s1 dbFail panel_id new_genes with
    | .error _ => (rollback c, .error (.exception "Failed to process downgrade"))
    | .ok (s2, changes) =>
      (commit { c with pending := s2 },
       .ok (DowngradeResult.mk panel_id rcode current_version version changes))

end Downgrade

/-! Concrete version literals and states used by witnesses and
counterexamples (kept as reduced rationals so that kernel evaluation works). -/

def v20 : Rat := ⟨2, 1, by decide, by decide⟩

def v25 : Rat := ⟨5, 2, by decide, by decide⟩

def v30 : Rat := ⟨3, 1, by decide, by decide⟩

/-- Panel 100001 tracked for Rcode R999.01 at version 2.5 with two genes. -/
def stateA : DBState :=
  { panel := [⟨100001, "R999.01", v25⟩]
    panel_genes := [⟨100001, "HGNC:1", 3⟩, ⟨100001, "HGNC:2", 2⟩]
    panel_genes_archive := []
    patient_data := []
    genes_info := ["HGNC:1", "HGNC:2"] }

/-- Like `stateA` but the archive already holds a stray row tagged with the
still-current version 2.5 for a gene absent from the live panel. -/
def stateB : DBState :=
  { panel := [⟨100001, "R999.01", v25⟩]
    panel_genes := [⟨100001, "HGNC:1", 3⟩]
    panel_genes_archive := [⟨100001, "HGNC:9", v25, 1⟩]
    patient_data := []
    genes_info := ["HGNC:1", "HGNC:9"] }

/-- Patient TEST123 tested twice for TEST_R999: version 2.0 on 2023-01-01
and version 2.5 on 2024-12-01. -/
def stateC : DBState :=
  { panel := [⟨100001, "TEST_R999", v25⟩]
    panel_genes := []
    panel_genes_archive := []
    patient_data := [⟨"TEST123", 100001, "TEST_R999", v20, "2023-01-01"⟩,
                     ⟨"TEST123", 100001, "TEST_R999", v25, "2024-12-01"⟩]
    genes_info := [] }

/-- A database where no panel row matches Rcode R999.01 / panel 100001. -/
def stateEmpty : DBState :=
  { panel := [], panel_genes := [], panel_genes_archive := [], patient_data := [],
    genes_info := [] }

/-- Registry payload for panel version 2.0 carrying exactly the live
contents of `stateD`'s panel. -/
def stateD : DBState :=
  { panel := [⟨100001, "R999.01", v25⟩]
    panel_genes := [⟨100001, "HGNC:1", 3⟩]
    panel_genes_archive := []
    patient_data := []
    genes_info := ["HGNC:1"] }

def recordsD : List RawGene := [⟨some "HGNC:1", some 3⟩]

/-- A single tracked panel used by the C7 counterexample. -/
def state71 : DBState :=
  { panel := [⟨1, "R1", v20⟩], panel_genes := [], panel_genes_archive := [],
    patient_data := [], genes_info := [] }

/-! Lemmas about the dictionary model. -/

theorem dlookup_append {β : Type} (l m : List (Gene × β)) (g : Gene) :
    dlookup (l ++ m) g = (dlookup l g <|> dlookup m g) := by
  induction l with
  | nil => simp [dlookup]
  | cons p ps ih =>
    by_cases h : p.1 = g
    · simp [dlookup, h]
    · simp [dlookup, h, ih]

theorem dlookup_isSome_iff {β : Type} (m : List (Gene × β)) (g : Gene) :
    (dlookup m g).isSome ↔ g ∈ keys m := by
  induction m with
  | nil => simp [dlookup, keys]
  | cons p ps ih =>
    by_cases h : p.1 = g
    · simp [dlookup, h, keys]
    · have h' : ¬g = p.1 := fun hh => h hh.symm
      simp only [dlookup, h, if_false, keys, List.map_cons, List.mem_cons, h', false_or]
      exact ih

theorem mem_keys_iff {β : Type} (m : List (Gene × β)) (g : Gene) :
    g ∈ keys m ↔ ∃ v, (g, v) ∈ m := by
  simp only [keys, List.mem_map]
  constructor
  · rintro ⟨⟨a, b⟩, hm, rfl⟩
    exact ⟨b, hm⟩
  · rintro ⟨v, hv⟩
    exact ⟨(g, v), hv, rfl⟩

theorem dlookup_map_set {β : Type} (d : List (Gene × β)) (k : Gene) (v : β) (g : Gene) :
    dlookup (d.map (fun p => if p.1 = k then (k, v) else p)) g =
      if g = k then (dlookup d k).map (fun _ => v) else dlookup d g := by
  induction d with
  | nil => by_cases h : g = k <;> simp [dlookup, h]
  | cons p ps ih =>
    simp only [List.map_cons]
    by_cases hpk : p.1 = k
    · by_cases hgk : g = k
      · subst hgk
        simp [dlookup, hpk]
      · have hkg : ¬k = g := fun hh => hgk hh.symm
        have hpg : ¬p.1 = g := hpk ▸ hkg
        simp [dlookup, hpk, hkg, hgk, hpg, ih]
    · by_cases hgk : g = k
      · subst hgk
        simp [dlookup, hpk, ih]
      · by_cases hpg : p.1 = g
        · simp [dlookup, hpk, hpg, hgk]
        · simp [dlookup, hpk, hpg, hgk, ih]

theorem dlookup_dictSet {β : Type} (d : List (Gene × β)) (k : Gene) (v : β) (g : Gene) :
    dlookup (dictSet d k v) g = if g = k then some v else dlookup d g := by
  by_cases h : (dlookup d k).isSome
  · simp only [dictSet, h, if_true, dlookup_map_set]
    by_cases hgk : g = k
    · obtain ⟨w, hw⟩ := Option.isSome_iff_exists.mp h
      simp [hgk, hw]
    · simp [hgk]
  · have hnone : dlookup d k = none := Option.not_isSome_iff_eq_none.mp h
    simp only [dictSet, h, Bool.false_eq_true, if_false, dlookup_append]
    by_cases hgk : g = k
    · subst hgk
      simp [hnone, dlookup]
    · have hkg : ¬k = g := fun hh => hgk hh.symm
      cases hdl : dlookup d g <;> simp [dlookup, hkg, hgk]

theorem dlookup_foldl_dictSet {β : Type} (l : List (Gene × β)) (g : Gene) :
    ∀ acc, dlookup (l.foldl (fun d p => dictSet d p.1 p.2) acc) g =
      (dlookup l.reverse g <|> dlookup acc g) := by
  induction l with
  | nil => intro acc; simp [dlookup]
  | cons p ps ih =>
    intro acc
    simp only [List.foldl_cons, List.reverse_cons]
    rw [ih, dlookup_append]
    rw [dlookup_dictSet]
    cases hrev : dlookup ps.reverse g
    · by_cases hg : g = p.1
      · simp [dlookup, hg]
      · have hpg : ¬p.1 = g := fun hh => hg hh.symm
        simp [dlookup, hg, hpg]
    · simp

theorem dlookup_pyDict {β : Type} (l : List (Gene × β)) (g : Gene) :
    dlookup (pyDict l) g = dlookup l.reverse g := by
  have h := dlookup_foldl_dictSet l g []
  simpa [pyDict, dlookup] using h

/-! Lemmas about the SQL `MAX` aggregate. -/

theorem sqlMaxBy_mem {α : Type} (lt : α → α → Bool) (l : List α) (m : α)
    (h : sqlMaxBy lt l = some m) : m ∈ l := by
  induction l generalizing m with
  | nil => simp [sqlMaxBy] at h
  | cons a as ih =>
    simp only [sqlMaxBy] at h
    cases hrec : sqlMaxBy lt as with
    | none =>
      rw [hrec] at h
      simp only [Option.some.injEq] at h
      subst h
      exact List.mem_cons_self a as
    | some b =>
      rw [hrec] at h
      simp only [Option.some.injEq] at h
      by_cases hba : lt b a
      · simp only [hba, if_true] at h
        subst h
        exact List.mem_cons_self a as
      · simp only [hba, Bool.false_eq_true, if_false] at h
        subst h
        exact List.mem_cons_of_mem a (ih b hrec)

theorem sqlMaxBy_isSome {α : Type} (lt : α → α → Bool) (l : List α) :
    (sqlMaxBy lt l).isSome ↔ l ≠ [] := by
  cases l with
  | nil => simp [sqlMaxBy]
  | cons a as =>
    simp only [ne_eq, List.cons_ne_nil, not_false_eq_true, iff_true, sqlMaxBy]
    cases sqlMaxBy lt as <;> simp

theorem sqlMaxBy_ub {α : Type} (lt : α → α → Bool)
    (hirr : ∀ x, lt x x = false)
    (htrans : ∀ a b c, lt a b = true → lt b c = true → lt a c = true)
    (l : List α) (m : α) (h : sqlMaxBy lt l = some m) :
    ∀ x ∈ l, lt m x = false := by
  induction l generalizing m with
  | nil => simp
  | cons a as ih =>
    intro x hx
    simp only [sqlMaxBy] at h
    cases hrec : sqlMaxBy lt as with
    | none =>
      have hnil : as = [] := by
        by_contra hne
        have := (sqlMaxBy_isSome lt as).mpr hne
        rw [hrec] at this
        simp at this
      rw [hrec] at h
      simp only [Option.some.injEq] at h
      subst h
      subst hnil
      rcases List.mem_cons.mp hx with rfl | hxas
      · exact hirr _
      · simp at hxas
    | some b =>
      rw [hrec] at h
      simp only [Option.some.injEq] at h
      by_cases hba : lt b a
      · simp only [hba, if_true] at h
        subst h
        rcases List.mem_cons.mp hx with rfl | hxas
        · exact hirr _
        · by_contra habs
          have hax : lt a x = true := by
            cases hmx : lt a x
            · exact absurd hmx habs
            · rfl
          have hbx : lt b x = true := htrans b a x hba hax
          have hfalse := ih b hrec x hxas
          rw [hfalse] at hbx
          exact Bool.false_ne_true hbx
      · simp only [hba, Bool.false_eq_true, if_false] at h
        subst h
        rcases List.mem_cons.mp hx with rfl | hxas
        · cases hq : lt b x
          · rfl
          · exact absurd hq hba
        · exact ih b hrec x hxas

/-! The two comparators are irreflexive and transitive. -/

theorem ratLtB_irrefl (x : Rat) : ratLtB x x = false := by
  simp [ratLtB]

theorem ratLtB_trans (a b c : Rat) (hab : ratLtB a b = true) (hbc : ratLtB b c = true) :
    ratLtB a c = true := by
  simp only [ratLtB, decide_eq_true_eq] at *
  exact lt_trans hab hbc

theorem charsLt_irrefl (l : List Char) : charsLt l l = false := by
  induction l with
  | nil => rfl
  | cons a as ih => simp [charsLt, ih]

theorem charsLt_trans :
    ∀ a b c, charsLt a b = true → charsLt b c = true → charsLt a c = true := by
  intro a
  induction a with
  | nil =>
    intro b c hab hbc
    cases b with
    | nil => simp [charsLt] at hab
    | cons y ys =>
      cases c with
      | nil => simp [charsLt] at hbc
      | cons z zs => simp [charsLt]
  | cons x xs ih =>
    intro b c hab hbc
    cases b with
    | nil => simp [charsLt] at hab
    | cons y ys =>
      cases c with
      | nil => simp [charsLt] at hbc
      | cons z zs =>
        simp only [charsLt] at hab hbc ⊢
        by_cases hxy : x.toNat < y.toNat
        · by_cases hyz : y.toNat < z.toNat
          · have hxz : x.toNat < z.toNat := Nat.lt_trans hxy hyz
            simp [hxz]
          · by_cases hzy : z.toNat < y.toNat
            · simp [hyz, hzy] at hbc
            · have hyz' : y.toNat = z.toNat :=
                Nat.le_antisymm (Nat.not_lt.mp hzy) (Nat.not_lt.mp hyz)
              have hxz : x.toNat < z.toNat := hyz' ▸ hxy
              simp [hxz]
        · by_cases hyx : y.toNat < x.toNat
          · simp [hxy, hyx] at hab
          · have hxy' : x.toNat = y.toNat :=
              Nat.le_antisymm (Nat.not_lt.mp hyx) (Nat.not_lt.mp hxy)
            simp only [hxy, Bool.false_eq_true, if_false, hyx] at hab
            by_cases hyz : y.toNat < z.toNat
            · have hxz : x.toNat < z.toNat := hxy' ▸ hyz
              simp [hxz]
            · by_cases hzy : z.toNat < y.toNat
              · simp [hyz, hzy] at hbc
              · simp only [hyz, Bool.false_eq_true, if_false, hzy] at hbc
                have h1 : ¬x.toNat < z.toNat := hxy' ▸ hyz
                have h2 : ¬z.toNat < x.toNat := hxy' ▸ hzy
                simp only [h1, Bool.false_eq_true, if_false, h2]
                exact ih ys zs hab hbc

theorem sqlTextLt_irrefl (x : String) : sqlTextLt x x = false := by
  simp [sqlTextLt, charsLt_irrefl]

theorem sqlTextLt_trans (a b c : String) (hab : sqlTextLt a b = true)
    (hbc : sqlTextLt b c = true) : sqlTextLt a c = true := by
  exact charsLt_trans a.data b.data c.data hab hbc

/-- Lookup in the reversed image of a filtered row list: the value of the
first row of the reversed list that passes the filter and carries key `g`. -/
theorem dlookup_filter_map_head {ρ β : Type} (m : List ρ) (p : ρ → Bool)
    (key : ρ → Gene) (val : ρ → β) (g : Gene) :
    dlookup ((m.filter p).map (fun x => (key x, val x))) g =
      ((m.filter (fun x => p x && decide (key x = g))).head?).map val := by
  induction m with
  | nil => simp [dlookup]
  | cons h t ih =>
    by_cases hp : p h
    · by_cases hk : key h = g
      · simp [List.filter_cons, hp, hk, dlookup]
      · simp [List.filter_cons, hp, hk, dlookup, ih]
    · simp [List.filter_cons, hp, ih]

/-! Membership characterizations of the three collections returned by
Query.compare_panel_versions. -/

theorem mem_genes_added (old new : GeneMap) (g : Gene) (v : Conf) :
    (g, v) ∈ (Query.compare_panel_versions old new).1 ↔
      dlookup new g = some v ∧ dlookup old g = none := by
  simp only [Query.compare_panel_versions, List.mem_filterMap]
  constructor
  · rintro ⟨a, _ha, hfa⟩
    split at hfa
    · simp at hfa
    · rename_i hsome
      rw [Option.map_eq_some'] at hfa
      obtain ⟨c, hc, heq⟩ := hfa
      rw [Prod.mk.injEq] at heq
      obtain ⟨rfl, rfl⟩ := heq
      exact ⟨hc, Option.not_isSome_iff_eq_none.mp hsome⟩
  · rintro ⟨hnew, hold⟩
    refine ⟨g, ?_, ?_⟩
    · rw [← dlookup_isSome_iff]
      simp [hnew]
    · simp [hold, hnew]

theorem mem_genes_removed (old new : GeneMap) (g : Gene) (v : Conf) :
    (g, v) ∈ (Query.compare_panel_versions old new).2.1 ↔
      dlookup old g = some v ∧ dlookup new g = none := by
  simp only [Query.compare_panel_versions, List.mem_filterMap]
  constructor
  · rintro ⟨a, _ha, hfa⟩
    split at hfa
    · simp at hfa
    · rename_i hsome
      rw [Option.map_eq_some'] at hfa
      obtain ⟨c, hc, heq⟩ := hfa
      rw [Prod.mk.injEq] at heq
      obtain ⟨rfl, rfl⟩ := heq
      exact ⟨hc, Option.not_isSome_iff_eq_none.mp hsome⟩
  · rintro ⟨hold, hnew⟩
    refine ⟨g, ?_, ?_⟩
    · rw [← dlookup_isSome_iff]
      simp [hold]
    · simp [hold, hnew]

theorem mem_conf_changes (old new : GeneMap) (g : Gene) (ov nv : Conf) :
    (g, (ov, nv)) ∈ (Query.compare_panel_versions old new).2.2 ↔
      dlookup old g = some ov ∧ dlookup new g = some nv ∧ ov ≠ nv := by
  simp only [Query.compare_panel_versions, List.mem_filterMap]
  constructor
  · rintro ⟨a, _ha, hfa⟩
    cases hold : dlookup old a with
    | none => rw [hold] at hfa; simp at hfa
    | some oc =>
      cases hnew : dlookup new a with
      | none => rw [hold, hnew] at hfa; simp at hfa
      | some nc =>
        rw [hold, hnew] at hfa
        by_cases heq : nc = oc
        · simp [heq] at hfa
        · simp only [heq, if_false] at hfa
          rw [Option.some.injEq, Prod.mk.injEq] at hfa
          obtain ⟨rfl, hfa2⟩ := hfa
          rw [Prod.mk.injEq] at hfa2
          obtain ⟨rfl, rfl⟩ := hfa2
          exact ⟨hold, hnew, fun h => heq h.symm⟩
  · rintro ⟨hold, hnew, hne⟩
    refine ⟨g, ?_, ?_⟩
    · rw [← dlookup_isSome_iff]
      simp [hnew]
    · rw [hold, hnew]
      simp only [if_neg (Ne.symm hne)]

theorem mem_keys_added (old new : GeneMap) (g : Gene) :
    g ∈ keys (Query.compare_panel_versions old new).1 ↔
      dlookup old g = none ∧ (dlookup new g).isSome := by
  rw [mem_keys_iff]
  constructor
  · rintro ⟨v, hv⟩
    obtain ⟨hnew, hold⟩ := (mem_genes_added old new g v).mp hv
    exact ⟨hold, by simp [hnew]⟩
  · rintro ⟨hold, hnew⟩
    obtain ⟨v, hv⟩ := Option.isSome_iff_exists.mp hnew
    exact ⟨v, (mem_genes_added old new g v).mpr ⟨hv, hold⟩⟩

theorem mem_keys_removed (old new : GeneMap) (g : Gene) :
    g ∈ keys (Query.compare_panel_versions old new).2.1 ↔
      dlookup new g = none ∧ (dlookup old g).isSome := by
  rw [mem_keys_iff]
  constructor
  · rintro ⟨v, hv⟩
    obtain ⟨hold, hnew⟩ := (mem_genes_removed old new g v).mp hv
    exact ⟨hnew, by simp [hold]⟩
  · rintro ⟨hnew, hold⟩
    obtain ⟨v, hv⟩ := Option.isSome_iff_exists.mp hold
    exact ⟨v, (mem_genes_removed old new g v).mpr ⟨hv, hnew⟩⟩

theorem mem_keys_changed (old new : GeneMap) (g : Gene) :
    g ∈ keys (Query.compare_panel_versions old new).2.2 ↔
      ∃ ov nv, dlookup old g = some ov ∧ dlookup new g = some nv ∧ ov ≠ nv := by
  rw [mem_keys_iff]
  constructor
  · rintro ⟨⟨ov, nv⟩, hv⟩
    exact ⟨ov, nv, (mem_conf_changes old new g ov nv).mp hv⟩
  · rintro ⟨ov, nv, h⟩
    exact ⟨(ov, nv), (mem_conf_changes old new g ov nv).mpr h⟩

/-- C1: for every pair of gene-to-confidence mappings `(old, new)`,
`compare_panel_versions old new` returns `(added, removed, changed)` where
`added` is exactly the genes present in `new` and absent in `old` with their
new confidence, `removed` exactly those present in `old` and absent in `new`
with their old confidence, and `changed` exactly those present in both with
differing confidence paired as `(old confidence, new confidence)`; genes
present in both with equal confidence appear in none of the three; the three
key sets are pairwise disjoint; and every gene of `keys old ∪ keys new`
falls into exactly one of added, removed, changed, or the implicit unchanged
set.  The function is a total Lean function, so it is in particular defined
on empty, fully disjoint and fully identical inputs. -/
theorem compare_panel_versions_partition (old new : GeneMap) :
    (∀ g v, (g, v) ∈ (Query.compare_panel_versions old new).1 ↔
        dlookup new g = some v ∧ dlookup old g = none) ∧
    (∀ g v, (g, v) ∈ (Query.compare_panel_versions old new).2.1 ↔
        dlookup old g = some v ∧ dlookup new g = none) ∧
    (∀ g ov nv, (g, (ov, nv)) ∈ (Query.compare_panel_versions old new).2.2 ↔
        dlookup old g = some ov ∧ dlookup new g = some nv ∧ ov ≠ nv) ∧
    (∀ g v, dlookup old g = some v → dlookup new g = some v →
        g ∉ keys (Query.compare_panel_versions old new).1 ∧
        g ∉ keys (Query.compare_panel_versions old new).2.1 ∧
        g ∉ keys (Query.compare_panel_versions old new).2.2) ∧
    (∀ g, ¬(g ∈ keys (Query.compare_panel_versions old new).1 ∧
            g ∈ keys (Query.compare_panel_versions old new).2.1) ∧
          ¬(g ∈ keys (Query.compare_panel_versions old new).1 ∧
            g ∈ keys (Query.compare_panel_versions old new).2.2) ∧
          ¬(g ∈ keys (Query.compare_panel_versions old new).2.1 ∧
            g ∈ keys (Query.compare_panel_versions old new).2.2)) ∧
    (∀ g, g ∈ keys old ∨ g ∈ keys new →
        (g ∈ keys (Query.compare_panel_versions old new).1 ∧
         g ∉ keys (Query.compare_panel_versions old new).2.1 ∧
         g ∉ keys (Query.compare_panel_versions old new).2.2 ∧
         ¬(∃ v, dlookup old g = some v ∧ dlookup new g = some v)) ∨
        (g ∉ keys (Query.compare_panel_versions old new).1 ∧
         g ∈ keys (Query.compare_panel_versions old new).2.1 ∧
         g ∉ keys (Query.compare_panel_versions old new).2.2 ∧
         ¬(∃ v, dlookup old g = some v ∧ dlookup new g = some v)) ∨
        (g ∉ keys (Query.compare_panel_versions old new).1 ∧
         g ∉ keys (Query.compare_panel_versions old new).2.1 ∧
         g ∈ keys (Query.compare_panel_versions old new).2.2 ∧
         ¬(∃ v, dlookup old g = some v ∧ dlookup new g = some v)) ∨
        (g ∉ keys (Query.compare_panel_versions old new).1 ∧
         g ∉ keys (Query.compare_panel_versions old new).2.1 ∧
         g ∉ keys (Query.compare_panel_versions old new).2.2 ∧
         (∃ v, dlookup old g = some v ∧ dlookup new g = some v))) := by
  refine ⟨fun g v => mem_genes_added old new g v,
          fun g v => mem_genes_removed old new g v,
          fun g ov nv => mem_conf_changes old new g ov nv, ?_, ?_, ?_⟩
  · intro g v hold hnew
    refine ⟨?_, ?_, ?_⟩
    · intro hA
      obtain ⟨h1, _⟩ := (mem_keys_added old new g).mp hA
      rw [hold] at h1
      simp at h1
    · intro hR
      obtain ⟨h1, _⟩ := (mem_keys_removed old new g).mp hR
      rw [hnew] at h1
      simp at h1
    · intro hC
      obtain ⟨ov, nv, h1, h2, h3⟩ := (mem_keys_changed old new g).mp hC
      rw [hold] at h1
      rw [hnew] at h2
      rw [Option.some.injEq] at h1 h2
      subst h1
      subst h2
      exact h3 rfl
  · intro g
    refine ⟨?_, ?_, ?_⟩
    · rintro ⟨hA, hR⟩
      obtain ⟨h1, _⟩ := (mem_keys_added old new g).mp hA
      obtain ⟨_, h4⟩ := (mem_keys_removed old new g).mp hR
      rw [h1] at h4
      simp at h4
    · rintro ⟨hA, hC⟩
      obtain ⟨h1, _⟩ := (mem_keys_added old new g).mp hA
      obtain ⟨ov, nv, h3, _, _⟩ := (mem_keys_changed old new g).mp hC
      rw [h1] at h3
      simp at h3
    · rintro ⟨hR, hC⟩
      obtain ⟨h1, _⟩ := (mem_keys_removed old new g).mp hR
      obtain ⟨ov, nv, _, h4, _⟩ := (mem_keys_changed old new g).mp hC
      rw [h1] at h4
      simp at h4
  · intro g hg
    cases hO : dlookup old g with
    | none =>
      cases hN : dlookup new g with
      | none =>
        rcases hg with h | h
        · rw [← dlookup_isSome_iff, hO] at h
          simp at h
        · rw [← dlookup_isSome_iff, hN] at h
          simp at h
      | some nv =>
        left
        refine ⟨(mem_keys_added old new g).mpr ⟨hO, by simp [hN]⟩, ?_, ?_, ?_⟩
        · intro hR
          obtain ⟨_, h2⟩ := (mem_keys_removed old new g).mp hR
          rw [hO] at h2
          simp at h2
        · intro hC
          obtain ⟨ov, nv', h3, _, _⟩ := (mem_keys_changed old new g).mp hC
          rw [hO] at h3
          simp at h3
        · rintro ⟨v, h1, _⟩
          simp at h1
    | some ov =>
      cases hN : dlookup new g with
      | none =>
        right; left
        refine ⟨?_, (mem_keys_removed old new g).mpr ⟨hN, by simp [hO]⟩, ?_, ?_⟩
        · intro hA
          obtain ⟨_, h2⟩ := (mem_keys_added old new g).mp hA
          rw [hN] at h2
          simp at h2
        · intro hC
          obtain ⟨ov', nv', _, h4, _⟩ := (mem_keys_changed old new g).mp hC
          rw [hN] at h4
          simp at h4
        · rintro ⟨v, _, h2⟩
          simp at h2
      | some nv =>
        by_cases hveq : ov = nv
        · subst hveq
          right; right; right
          refine ⟨?_, ?_, ?_, ⟨ov, rfl, rfl⟩⟩
          · intro hA
            obtain ⟨h1, _⟩ := (mem_keys_added old new g).mp hA
            rw [hO] at h1
            simp at h1
          · intro hR
            obtain ⟨h1, _⟩ := (mem_keys_removed old new g).mp hR
            rw [hN] at h1
            simp at h1
          · intro hC
            obtain ⟨ov', nv', h3, h4, h5⟩ := (mem_keys_changed old new g).mp hC
            rw [hO] at h3
            rw [hN] at h4
            rw [Option.some.injEq] at h3 h4
            subst h3
            subst h4
            exact h5 rfl
        · right; right; left
          refine ⟨?_, ?_, (mem_keys_changed old new g).mpr ⟨ov, nv, hO, hN, hveq⟩, ?_⟩
          · intro hA
            obtain ⟨h1, _⟩ := (mem_keys_added old new g).mp hA
            rw [hO] at h1
            simp at h1
          · intro hR
            obtain ⟨h1, _⟩ := (mem_keys_removed old new g).mp hR
            rw [hN] at h1
            simp at h1
          · rintro ⟨v, h1, h2⟩
            rw [Option.some.injEq] at h1 h2
            subst h1
            exact hveq h2.symm

/-- Unfolded form of a reconciliation whose registry fetch succeeds: the
panel row is rewritten, the missing archive triples are appended tagged with
the superseded version, and the panel's gene rows are replaced wholesale. -/
theorem reconcileSeq_ok_state (c : Conn) (genes : GeneMap) (rcode : String)
    (latest V : Rat) (pid : Int) :
    reconcileSeq c (some genes) rcode latest pid V =
      (connOf (DBState.mk
        (c.pending.panel.map (fun r =>
          if r.panel_id = pid ∧ r.rcodes = rcode then PanelRow.mk pid rcode latest else r))
        ((c.pending.panel_genes.filter (fun pg => !decide (pg.panel_id = pid))) ++
          genes.map (fun gc => PGRow.mk pid gc.1 gc.2))
        (c.pending.panel_genes_archive ++
          (c.pending.panel_genes.filter (fun pg =>
            decide (pg.panel_id = pid) &&
            !(c.pending.panel_genes_archive.any (fun pga =>
              decide (pga.panel_id = pg.panel_id ∧ pga.hgnc_id = pg.hgnc_id ∧
                pga.version = V))))).map
          (fun pg => ArchRow.mk pg.panel_id pg.hgnc_id V pg.confidence))
        c.pending.patient_data
        c.pending.genes_info), true) := rfl

/-- A nonempty filter exposes its head through `head?`, and the head passes
the filter. -/
theorem head_filter_some {α : Type} (l : List α) (p : α → Bool) (r : α)
    (hr : r ∈ l) (hpr : p r = true) :
    ∃ r0, (l.filter p).head? = some r0 ∧ r0 ∈ l ∧ p r0 = true := by
  have hne : l.filter p ≠ [] := List.ne_nil_of_mem (List.mem_filter.mpr ⟨hr, hpr⟩)
  have hmem := List.head_mem hne
  have hmem' := List.mem_filter.mp hmem
  exact ⟨(l.filter p).head hne, List.head?_eq_head hne, hmem'.1, hmem'.2⟩

/-- Boolean conjunction truth split. -/
theorem and_eq_true_iff {a b : Bool} : (a && b) = true ↔ a = true ∧ b = true := by
  simp

/-- C2: the reconciliation sequence invoked by the patient endpoint is not
all-or-nothing.  On the concrete stale panel `stateA` (stored version 2.5,
registry version 3.0) with the registry fetch inside `update_gene_contents`
failing, the two preceding steps have already committed: the committed
database ends with the Panel row at the registry version 3.0 while
`panel_genes` still holds the previous version's contents, and the endpoint
merely reports the failure through the `'Database update failed'`
disclaimer.  This contradicts the claimed rollback-to-pre-state behaviour. -/
theorem reconciliation_not_atomic :
    (reconcileSeq (connOf stateA) none "R999.01" v30 100001 v25).2 = false ∧
    (reconcileSeq (connOf stateA) none "R999.01" v30 100001 v25).1.committed.panel =
      [PanelRow.mk 100001 "R999.01" v30] ∧
    (reconcileSeq (connOf stateA) none "R999.01" v30 100001 v25).1.committed.panel_genes =
      stateA.panel_genes ∧
    Query.get_db_latest_version
      (reconcileSeq (connOf stateA) none "R999.01" v30 100001 v25).1.committed "R999.01" =
      some v30 ∧
    Query.current_panel_contents
      (reconcileSeq (connOf stateA) none "R999.01" v30 100001 v25).1.committed 100001 =
      Query.current_panel_contents stateA 100001 := by
  decide

/-- C3 (counterexample): a reconciliation superseding version 2.5 of panel
100001 in `stateB`, where the archive already holds a stray row
`(100001, HGNC:9, 2.5, 1)`, completes successfully, yet
`historic_panel_retrieval 100001 2.5` afterwards reports gene HGNC:9 with
confidence 1 although `current_panel_contents 100001` did not contain
HGNC:9 immediately before the reconciliation — the retrieved mapping is not
exactly the pre-reconciliation current mapping. -/
theorem archive_roundtrip_counterexample :
    (reconcileSeq (connOf stateB) (some [("HGNC:1", 3)]) "R999.01" v30 100001 v25).2 = true ∧
    dlookup (Query.historic_panel_retrieval
        (reconcileSeq (connOf stateB) (some [("HGNC:1", 3)]) "R999.01" v30 100001 v25).1.committed
        100001 v25) "HGNC:9" = some 1 ∧
    dlookup (Query.current_panel_contents stateB 100001) "HGNC:9" = none := by
  decide

/-- Specialization of `dlookup_filter_map_head` to gene rows. -/
theorem dlookup_filter_map_head_rev_pg (g : Gene) (m : List PGRow) (p : PGRow → Bool) :
    dlookup (((m.filter p).map (fun r => (r.hgnc_id, r.confidence))).reverse) g =
      ((m.reverse.filter (fun x => p x && decide (x.hgnc_id = g))).head?).map
        (fun r => r.confidence) := by
  rw [← List.map_reverse, ← List.filter_reverse]
  exact dlookup_filter_map_head m.reverse p (fun r => r.hgnc_id) (fun r => r.confidence) g

/-- Specialization of `dlookup_filter_map_head` to archive rows. -/
theorem dlookup_filter_map_head_rev_arch (g : Gene) (m : List ArchRow) (p : ArchRow → Bool) :
    dlookup (((m.filter p).map (fun r => (r.hgnc_id, r.confidence))).reverse) g =
      ((m.reverse.filter (fun x => p x && decide (x.hgnc_id = g))).head?).map
        (fun r => r.confidence) := by
  rw [← List.map_reverse, ← List.filter_reverse]
  exact dlookup_filter_map_head m.reverse p (fun r => r.hgnc_id) (fun r => r.confidence) g

/-- Core of the archive round trip: looking up any gene in the dict built
from the archive rows of `(pid, V)` after the archive step equals looking it
up in the dict built from the panel's current gene rows, provided every
pre-existing `(pid, V)` archive row agrees with that current dict. -/
theorem dlookup_archive_roundtrip
    (panel_genes : List PGRow) (arch : List ArchRow) (pid : Int) (V : Rat)
    (hpre : ∀ row ∈ arch, row.panel_id = pid → row.version = V →
        dlookup (pyDict ((panel_genes.filter (fun r => decide (r.panel_id = pid))).map
          (fun r => (r.hgnc_id, r.confidence)))) row.hgnc_id = some row.confidence)
    (g : Gene) :
    dlookup (pyDict (((arch ++
        (panel_genes.filter (fun pg =>
          decide (pg.panel_id = pid) &&
          !(arch.any (fun pga => decide (pga.panel_id = pg.panel_id ∧
            pga.hgnc_id = pg.hgnc_id ∧ pga.version = V))))).map
          (fun pg => ArchRow.mk pg.panel_id pg.hgnc_id V pg.confidence)).filter
        (fun r => decide (r.panel_id = pid ∧ r.version = V))).map
      (fun r => (r.hgnc_id, r.confidence)))) g =
    dlookup (pyDict ((panel_genes.filter (fun r => decide (r.panel_id = pid))).map
      (fun r => (r.hgnc_id, r.confidence)))) g := by
  set condA : PGRow → Bool := fun pg =>
    decide (pg.panel_id = pid) &&
    !(arch.any (fun pga => decide (pga.panel_id = pg.panel_id ∧
      pga.hgnc_id = pg.hgnc_id ∧ pga.version = V))) with hcondA
  set P : ArchRow → Bool := fun r => decide (r.panel_id = pid ∧ r.version = V) with hP
  have hcop : ((panel_genes.filter condA).map
      (fun pg => ArchRow.mk pg.panel_id pg.hgnc_id V pg.confidence)).filter P =
      (panel_genes.filter condA).map
        (fun pg => ArchRow.mk pg.panel_id pg.hgnc_id V pg.confidence) := by
    apply List.filter_eq_self.mpr
    intro r hr
    rcases List.mem_map.mp hr with ⟨pg, hpg, rfl⟩
    have hc := (List.mem_filter.mp hpg).2
    simp only [hcondA, Bool.and_eq_true, decide_eq_true_eq] at hc
    simp [hP, hc.1]
  rw [dlookup_pyDict, List.filter_append, List.map_append, List.reverse_append,
    dlookup_append, hcop, List.map_map]
  have hcopmap : ((fun r : ArchRow => (r.hgnc_id, r.confidence)) ∘
      (fun pg : PGRow => ArchRow.mk pg.panel_id pg.hgnc_id V pg.confidence)) =
      (fun r : PGRow => (r.hgnc_id, r.confidence)) := rfl
  rw [hcopmap, dlookup_filter_map_head_rev_pg, dlookup_filter_map_head_rev_arch]
  have hcur : dlookup (pyDict ((panel_genes.filter
      (fun r => decide (r.panel_id = pid))).map (fun r => (r.hgnc_id, r.confidence)))) g =
      ((panel_genes.reverse.filter (fun x =>
        decide (x.panel_id = pid) && decide (x.hgnc_id = g))).head?).map
        (fun r => r.confidence) := by
    rw [dlookup_pyDict, dlookup_filter_map_head_rev_pg]
  cases hTr : arch.any (fun pga => decide (pga.panel_id = pid ∧
      pga.hgnc_id = g ∧ pga.version = V)) with
  | false =>
    have hcongr : panel_genes.reverse.filter (fun x => condA x && decide (x.hgnc_id = g)) =
        panel_genes.reverse.filter (fun x =>
          decide (x.panel_id = pid) && decide (x.hgnc_id = g)) := by
      apply List.filter_congr
      intro x _hx
      by_cases hxg : x.hgnc_id = g
      · by_cases hxp : x.panel_id = pid
        · simp only [hcondA, hxp, hxg, hTr]
          simp
        · simp [hcondA, hxp]
      · simp [hxg]
    rw [hcongr, hcur]
    cases hh : (panel_genes.reverse.filter (fun x =>
        decide (x.panel_id = pid) && decide (x.hgnc_id = g))).head? with
    | some r0 => simp [hh]
    | none =>
      simp only [hh, Option.map_none', Option.none_orElse]
      have hnil : arch.reverse.filter (fun x => P x && decide (x.hgnc_id = g)) = [] := by
        rw [List.filter_eq_nil_iff]
        intro r hr habs
        have h1 := and_eq_true_iff.mp habs
        have hPV : r.panel_id = pid ∧ r.version = V := by simpa [hP] using h1.1
        have hg' : r.hgnc_id = g := by simpa using h1.2
        have hany : arch.any (fun pga => decide (pga.panel_id = pid ∧
            pga.hgnc_id = g ∧ pga.version = V)) = true :=
          List.any_eq_true.mpr ⟨r, List.mem_reverse.mp hr, by
            simp [hPV.1, hPV.2, hg']⟩
        rw [hTr] at hany
        exact Bool.false_ne_true hany
      rw [hnil]
      rfl
  | true =>
    have hnilc : panel_genes.reverse.filter
        (fun x => condA x && decide (x.hgnc_id = g)) = [] := by
      rw [List.filter_eq_nil_iff]
      intro x _hx habs
      have h1 := and_eq_true_iff.mp habs
      have hxg : x.hgnc_id = g := by simpa using h1.2
      have hx1 := h1.1
      simp only [hcondA] at hx1
      simp at hx1
      obtain ⟨r, hrmem, hrp⟩ := List.any_eq_true.mp hTr
      have hr3 : r.panel_id = pid ∧ r.hgnc_id = g ∧ r.version = V := by simpa using hrp
      exact hx1.2 r hrmem (hr3.1.trans hx1.1.symm) (hr3.2.1.trans hxg.symm) hr3.2.2
    rw [hnilc]
    simp only [List.head?_nil, Option.map_none', Option.none_orElse]
    obtain ⟨r, hrmem, hrp⟩ := List.any_eq_true.mp hTr
    have hr3 : r.panel_id = pid ∧ r.hgnc_id = g ∧ r.version = V := by simpa using hrp
    obtain ⟨r0, hh, hr0mem, hr0p⟩ := head_filter_some arch.reverse
      (fun x => P x && decide (x.hgnc_id = g)) r (List.mem_reverse.mpr hrmem)
      (by simp [hP, hr3.1, hr3.2.1, hr3.2.2])
    rw [hh]
    have h1 := and_eq_true_iff.mp hr0p
    have hr0PV : r0.panel_id = pid ∧ r0.version = V := by simpa [hP] using h1.1
    have hr0g : r0.hgnc_id = g := by simpa using h1.2
    have hval := hpre r0 (List.mem_reverse.mp hr0mem) hr0PV.1 hr0PV.2
    simp only [Option.map_some']
    rw [← hr0g]
    exact hval.symm

/-- C3 (amended): for every reconciliation that supersedes a panel's stored
version `V` with a registry version and completes (registry fetch succeeds),
provided every row already archived for `(panel_id, V)` agrees with the
pre-reconciliation current contents (in particular when no such row exists
yet), `historic_panel_retrieval panel_id V` afterwards returns exactly the
gene-to-confidence mapping `current_panel_contents panel_id` returned
immediately before the reconciliation — every gene with its
pre-reconciliation confidence and nothing extra. -/
theorem archive_roundtrip_amended (c : Conn) (genes : GeneMap) (rcode : String)
    (latest V : Rat) (pid : Int)
    (hclean : c.pending = c.committed)
    (hpre : ∀ row ∈ c.committed.panel_genes_archive,
        row.panel_id = pid → row.version = V →
        dlookup (Query.current_panel_contents c.committed pid) row.hgnc_id =
          some row.confidence) :
    (reconcileSeq c (some genes) rcode latest pid V).2 = true ∧
    ∀ g, dlookup (Query.historic_panel_retrieval
        (reconcileSeq c (some genes) rcode latest pid V).1.committed pid V) g =
      dlookup (Query.current_panel_contents c.committed pid) g := by
  rw [reconcileSeq_ok_state, hclean]
  refine ⟨rfl, fun g => ?_⟩
  simp only [Query.current_panel_contents] at hpre
  simp only [connOf, Query.historic_panel_retrieval, Query.current_panel_contents]
  exact dlookup_archive_roundtrip c.committed.panel_genes c.committed.panel_genes_archive
    pid V hpre g

/-- Witness for the amended C3 theorem: the reconciliation of the spec's
Scenario B (panel 100001, version 2.5 superseded by 3.0). -/
theorem archive_roundtrip_amended_witness :
    (reconcileSeq (connOf stateA) (some [("HGNC:1", 3), ("HGNC:3", 3)])
        "R999.01" v30 100001 v25).2 = true ∧
    ∀ g, dlookup (Query.historic_panel_retrieval
        (reconcileSeq (connOf stateA) (some [("HGNC:1", 3), ("HGNC:3", 3)])
          "R999.01" v30 100001 v25).1.committed 100001 v25) g =
      dlookup (Query.current_panel_contents (connOf stateA).committed 100001) g :=
  archive_roundtrip_amended (connOf stateA) [("HGNC:1", 3), ("HGNC:3", 3)]
    "R999.01" v30 v25 100001 rfl (by decide)

/-- Unfolded form of Update.archive_panel_contents: the rows of
`panel_genes` for the panel whose `(Panel_ID, HGNC_ID, Version)` triple is
not yet archived are appended to the archive, and the result is committed. -/
theorem archive_panel_contents_state (c : Conn) (panel_id : Int) (v : Rat) :
    Update.archive_panel_contents c panel_id v =
      connOf { c.pending with panel_genes_archive := (c.pending.panel_genes_archive ++
        (c.pending.panel_genes.filter (fun pg =>
          decide (pg.panel_id = panel_id) &&
          !(c.pending.panel_genes_archive.any (fun pga =>
            decide (pga.panel_id = pg.panel_id ∧ pga.hgnc_id = pg.hgnc_id ∧
              pga.version = v))))).map
          (fun pg => ArchRow.mk pg.panel_id pg.hgnc_id v pg.confidence)) } := rfl

/-- C4: calling `archive_panel_contents panel_id v` twice in succession with
no intervening writes leaves the archive exactly as one call does — every
triple written by the first call is skipped by the second, which is a no-op
— and, when `panel_genes` has no duplicate `(Panel_ID, HGNC_ID)` pair and
the archive has no duplicate `(Panel_ID, HGNC_ID, Version)` triple to begin
with, the archive still has no duplicate triple after the call. -/
theorem archive_panel_contents_idempotent (c : Conn) (panel_id : Int) (v : Rat)
    (hkeys : (c.pending.panel_genes.map (fun pg => (pg.panel_id, pg.hgnc_id))).Nodup)
    (harch : (c.pending.panel_genes_archive.map
        (fun r => (r.panel_id, r.hgnc_id, r.version))).Nodup) :
    Update.archive_panel_contents (Update.archive_panel_contents c panel_id v) panel_id v =
      Update.archive_panel_contents c panel_id v ∧
    ((Update.archive_panel_contents c panel_id v).committed.panel_genes_archive.map
        (fun r => (r.panel_id, r.hgnc_id, r.version))).Nodup := by
  set s := c.pending with hs
  set condA : PGRow → Bool := fun pg =>
    decide (pg.panel_id = panel_id) &&
    !(s.panel_genes_archive.any (fun pga =>
      decide (pga.panel_id = pg.panel_id ∧ pga.hgnc_id = pg.hgnc_id ∧
        pga.version = v))) with hcondA
  set copied : List ArchRow := (s.panel_genes.filter condA).map
    (fun pg => ArchRow.mk pg.panel_id pg.hgnc_id v pg.confidence) with hcopied
  set condB : PGRow → Bool := fun pg =>
    decide (pg.panel_id = panel_id) &&
    !((s.panel_genes_archive ++ copied).any (fun pga =>
      decide (pga.panel_id = pg.panel_id ∧ pga.hgnc_id = pg.hgnc_id ∧
        pga.version = v))) with hcondB
  set copied2 : List ArchRow := (s.panel_genes.filter condB).map
    (fun pg => ArchRow.mk pg.panel_id pg.hgnc_id v pg.confidence) with hcopied2
  have hstate : Update.archive_panel_contents c panel_id v =
      connOf { s with panel_genes_archive := s.panel_genes_archive ++ copied } :=
    archive_panel_contents_state c panel_id v
  have hstate2 : Update.archive_panel_contents
      (connOf { s with panel_genes_archive := s.panel_genes_archive ++ copied })
      panel_id v =
      connOf { s with panel_genes_archive := (s.panel_genes_archive ++ copied) ++ copied2 } :=
    archive_panel_contents_state _ panel_id v
  have hnil : s.panel_genes.filter condB = [] := by
    rw [List.filter_eq_nil_iff]
    intro pg hpg habs
    have h1 := and_eq_true_iff.mp (by simpa only [hcondB] using habs)
    have hpid : pg.panel_id = panel_id := of_decide_eq_true h1.1
    have hanyfalse : ((s.panel_genes_archive ++ copied).any (fun pga =>
        decide (pga.panel_id = pg.panel_id ∧ pga.hgnc_id = pg.hgnc_id ∧
          pga.version = v))) = false := by
      have hb := h1.2
      cases hq : ((s.panel_genes_archive ++ copied).any (fun pga =>
          decide (pga.panel_id = pg.panel_id ∧ pga.hgnc_id = pg.hgnc_id ∧
            pga.version = v)))
      · rfl
      · rw [hq] at hb
        simp at hb
    rw [List.any_append] at hanyfalse
    have hsplit := Bool.or_eq_false_iff.mp hanyfalse
    have horig := hsplit.1
    have hcopf := hsplit.2
    have hmem : ArchRow.mk pg.panel_id pg.hgnc_id v pg.confidence ∈ copied := by
      rw [hcopied]
      refine List.mem_map.mpr ⟨pg, List.mem_filter.mpr ⟨hpg, ?_⟩, rfl⟩
      rw [hcondA]
      simp only [horig]
      simp [hpid]
    have hany : copied.any (fun pga =>
        decide (pga.panel_id = pg.panel_id ∧ pga.hgnc_id = pg.hgnc_id ∧
          pga.version = v)) = true :=
      List.any_eq_true.mpr ⟨_, hmem, by simp⟩
    rw [hcopf] at hany
    exact Bool.false_ne_true hany
  constructor
  · rw [hstate, hstate2]
    rw [hcopied2, hnil]
    simp
  · rw [hstate]
    simp only [connOf, List.map_append]
    apply List.Nodup.append
    · exact harch
    · rw [hcopied, List.map_map]
      have hcomp : ((fun r : ArchRow => (r.panel_id, r.hgnc_id, r.version)) ∘
          (fun pg : PGRow => ArchRow.mk pg.panel_id pg.hgnc_id v pg.confidence)) =
          fun pg : PGRow => ((pg.panel_id : Int), (pg.hgnc_id, v)) := rfl
      rw [hcomp]
      have hsplit2 : (s.panel_genes.filter condA).map
          (fun pg : PGRow => ((pg.panel_id : Int), (pg.hgnc_id, v))) =
          ((s.panel_genes.filter condA).map (fun pg => (pg.panel_id, pg.hgnc_id))).map
            (fun pr => (pr.1, pr.2, v)) := by
        rw [List.map_map]
        rfl
      rw [hsplit2]
      apply List.Nodup.map
      · rintro ⟨a1, a2⟩ ⟨b1, b2⟩ hab
        simp only [Prod.mk.injEq] at hab ⊢
        exact ⟨hab.1, hab.2.1⟩
      · exact List.Nodup.sublist (List.Sublist.map _ (List.filter_sublist _)) hkeys
    · intro t ht htc
      rcases List.mem_map.mp htc with ⟨row, hrowmem, rfl⟩
      rw [hcopied] at hrowmem
      rcases List.mem_map.mp hrowmem with ⟨pg, hpgmem, rfl⟩
      have hcond := (List.mem_filter.mp hpgmem).2
      rw [hcondA] at hcond
      have h2 := and_eq_true_iff.mp hcond
      have horigf : s.panel_genes_archive.any (fun pga =>
          decide (pga.panel_id = pg.panel_id ∧ pga.hgnc_id = pg.hgnc_id ∧
            pga.version = v)) = false := by
        have hb := h2.2
        cases hq : s.panel_genes_archive.any (fun pga =>
            decide (pga.panel_id = pg.panel_id ∧ pga.hgnc_id = pg.hgnc_id ∧
              pga.version = v))
        · rfl
        · rw [hq] at hb
          simp at hb
      rcases List.mem_map.mp ht with ⟨arow, harowmem, heq⟩
      simp only [Prod.mk.injEq] at heq
      have hany : s.panel_genes_archive.any (fun pga =>
          decide (pga.panel_id = pg.panel_id ∧ pga.hgnc_id = pg.hgnc_id ∧
            pga.version = v)) = true :=
        List.any_eq_true.mpr ⟨arow, harowmem, by
          simp [heq.1, heq.2.1, heq.2.2]⟩
      rw [horigf] at hany
      exact Bool.false_ne_true hany

/-- Witness for the C4 theorem at a concrete connection: archiving panel
100001 at version 2.5 twice equals archiving it once, and the archive keeps
distinct triples. -/
theorem archive_panel_contents_idempotent_witness :
    Update.archive_panel_contents
        (Update.archive_panel_contents (connOf stateA) 100001 v25) 100001 v25 =
      Update.archive_panel_contents (connOf stateA) 100001 v25 ∧
    ((Update.archive_panel_contents (connOf stateA) 100001 v25).committed.panel_genes_archive.map
        (fun r => (r.panel_id, r.hgnc_id, r.version))).Nodup :=
  archive_panel_contents_idempotent (connOf stateA) 100001 v25 (by decide) (by decide)

/-- C5: for every patient and Rcode with at least one matching
`patient_data` row, `check_patient_history` returns the Version of a row
carrying the most recent Date among the matching rows (no matching row has a
strictly later date), tie-broken by the highest Version among the rows
sharing that date; it returns None when no row matches; and on the concrete
history of patient TEST123 for TEST_R999 (2023-01-01 at version 2.0,
2024-12-01 at version 2.5) it returns 2.5. -/
theorem check_patient_history_correct (s : DBState) (patient_id rcode : String) :
    (s.patient_data.filter
        (fun r => decide (r.patient_id = patient_id ∧ r.rcode = rcode)) = [] →
      Query.check_patient_history s patient_id rcode = none) ∧
    (s.patient_data.filter
        (fun r => decide (r.patient_id = patient_id ∧ r.rcode = rcode)) ≠ [] →
      ∃ d v, Query.check_patient_history s patient_id rcode = some v ∧
        (∃ r ∈ s.patient_data, r.patient_id = patient_id ∧ r.rcode = rcode ∧ r.date = d) ∧
        (∀ r ∈ s.patient_data, r.patient_id = patient_id → r.rcode = rcode →
          sqlTextLt d r.date = false) ∧
        (∃ r ∈ s.patient_data, r.patient_id = patient_id ∧ r.rcode = rcode ∧
          r.date = d ∧ r.version = v) ∧
        (∀ r ∈ s.patient_data, r.patient_id = patient_id → r.rcode = rcode →
          r.date = d → ratLtB v r.version = false)) ∧
    Query.check_patient_history stateC "TEST123" "TEST_R999" = some v25 := by
  refine ⟨?_, ?_, by decide⟩
  · intro h
    simp only [Query.check_patient_history]
    rw [h]
    simp [sqlMaxBy]
  · intro hne
    have hmapne : (s.patient_data.filter
        (fun r => decide (r.patient_id = patient_id ∧ r.rcode = rcode))).map
          (fun r => r.date) ≠ [] := by
      intro h0
      exact hne (List.map_eq_nil_iff.mp h0)
    obtain ⟨d, hd⟩ := Option.isSome_iff_exists.mp
      ((sqlMaxBy_isSome sqlTextLt _).mpr hmapne)
    have hdmem' := sqlMaxBy_mem sqlTextLt _ d hd
    rcases List.mem_map.mp hdmem' with ⟨r0, hr0M, hr0d⟩
    have hr0 := List.mem_filter.mp hr0M
    have hr0p : r0.patient_id = patient_id ∧ r0.rcode = rcode := by simpa using hr0.2
    have hdub := sqlMaxBy_ub sqlTextLt sqlTextLt_irrefl sqlTextLt_trans _ d hd
    have hM2ne : (s.patient_data.filter
        (fun r => decide (r.patient_id = patient_id ∧ r.rcode = rcode ∧
          some r.date = some d))).map (fun r => r.version) ≠ [] := by
      intro h0
      have h1 := List.map_eq_nil_iff.mp h0
      rw [List.filter_eq_nil_iff] at h1
      exact h1 r0 hr0.1 (by simp [hr0p.1, hr0p.2, hr0d])
    obtain ⟨v, hv⟩ := Option.isSome_iff_exists.mp
      ((sqlMaxBy_isSome ratLtB _).mpr hM2ne)
    have hvmem := sqlMaxBy_mem ratLtB _ v hv
    rcases List.mem_map.mp hvmem with ⟨r1, hr1M, hr1v⟩
    have hr1 := List.mem_filter.mp hr1M
    have hr1p : r1.patient_id = patient_id ∧ r1.rcode = rcode ∧ r1.date = d := by
      simpa using hr1.2
    have hvub := sqlMaxBy_ub ratLtB ratLtB_irrefl ratLtB_trans _ v hv
    refine ⟨d, v, ?_, ⟨r0, hr0.1, hr0p.1, hr0p.2, hr0d⟩, ?_,
      ⟨r1, hr1.1, hr1p.1, hr1p.2.1, hr1p.2.2, hr1v⟩, ?_⟩
    · simp only [Query.check_patient_history]
      rw [hd, hv]
      obtain ⟨r2, hh2, hr2mem, hr2p⟩ := head_filter_some s.patient_data
        (fun r => decide (some r.date = some d ∧ some r.version = some v ∧
          r.patient_id = patient_id ∧ r.rcode = rcode)) r1 hr1.1
        (by simp [hr1p.1, hr1p.2.1, hr1p.2.2, hr1v])
      rw [hh2]
      have h3 : r2.version = v := by
        have h4 := hr2p
        simp only [decide_eq_true_eq] at h4
        exact Option.some.inj h4.2.1
      simp [h3]
    · intro r hr hp hrc
      exact hdub r.date (List.mem_map.mpr ⟨r, List.mem_filter.mpr ⟨hr, by simp [hp, hrc]⟩, rfl⟩)
    · intro r hr hp hrc hdate
      exact hvub r.version (List.mem_map.mpr
        ⟨r, List.mem_filter.mpr ⟨hr, by simp [hp, hrc, hdate]⟩, rfl⟩)

/-- Witness for the C5 theorem applied to the concrete Scenario-C state. -/
theorem check_patient_history_correct_witness :
    Query.check_patient_history stateC "TEST123" "TEST_R999" = some v25 :=
  (check_patient_history_correct stateC "TEST123" "TEST_R999").2.2

/-- C6: every execution of `process_downgrade` in which a step after the
transaction begins fails — the version update (no matching row), or the
gene-content replacement — rolls the transaction back: the connection is
returned exactly as it was before the call (panel row and panel_genes rows
unchanged), and the failure is surfaced as a raised error. -/
theorem process_downgrade_rollback (c : Conn) (dbFail : Bool) (rcode : String)
    (panel_id : Int) (version : Rat) (panel_records : List RawGene) (e : PyErr)
    (hclean : c.pending = c.committed)
    (herr : (Downgrade.process_downgrade c dbFail rcode panel_id version panel_records).2 =
      .error e) :
    (Downgrade.process_downgrade c dbFail rcode panel_id version panel_records).1 = c := by
  have hroll : rollback c = c := by
    obtain ⟨co, pe⟩ := c
    simp only at hclean
    rw [rollback, hclean]
  simp only [Downgrade.process_downgrade] at herr ⊢
  cases h1 : Downgrade.change_panels_version c.pending rcode version panel_id with
  | error e1 => simp [h1, hroll]
  | ok s1 =>
    cases h2 : Downgrade.change_gene_contents s1 dbFail panel_id
        (Downgrade.extract_genes_from_records panel_records) with
    | error e2 => simp [h1, h2, hroll]
    | ok pr =>
      obtain ⟨s2, changes⟩ := pr
      rw [h1] at herr
      simp [h2] at herr

/-- Witness for the C6 theorem: downgrading against an empty database fails
in `change_panels_version` (no matching row) and leaves the connection
untouched. -/
theorem process_downgrade_rollback_witness :
    (Downgrade.process_downgrade (connOf stateEmpty) false "R999.01" 100001 v20 []).2 =
      .error (.exception "Failed to process downgrade") ∧
    (Downgrade.process_downgrade (connOf stateEmpty) false "R999.01" 100001 v20 []).1 =
      connOf stateEmpty :=
  ⟨by decide, process_downgrade_rollback (connOf stateEmpty) false "R999.01" 100001 v20 []
    (.exception "Failed to process downgrade") rfl (by decide)⟩

/-- C7 (counterexample): `update_panels_version` has no return statement, so
the caller receives None in every case.  The call on a connection where
exactly one row matches returns the very same value as the call on a
connection where no row matches, so the zero-rows-affected outcome is not
determinable from the call's result — contradicting the claim that the
caller can determine it from the result. -/
theorem update_panels_version_result_uninformative :
    (Update.update_panels_version (connOf state71) "R1" v30 1).2 =
      (Update.update_panels_version (connOf stateEmpty) "R1" v30 1).2 ∧
    (state71.panel.filter (fun r => decide (r.panel_id = 1 ∧ r.rcodes = "R1"))).length = 1 ∧
    (stateEmpty.panel.filter (fun r => decide (r.panel_id = 1 ∧ r.rcodes = "R1"))).length = 0 ∧
    (Update.update_panels_version (connOf state71) "R1" v30 1).1.committed.panel =
      [PanelRow.mk 1 "R1" v30] ∧
    (Update.update_panels_version (connOf stateEmpty) "R1" v30 1).1 = connOf stateEmpty := by
  decide

/-- C7 (amended): when no panel row matches `(panel_id, rcode)` the call
does not crash: it leaves every table unchanged and returns None exactly as
a matching call does, so the zero-rows-affected outcome is observable only
by re-reading the table, not from the call's result. -/
theorem update_panels_version_no_match_amended (c : Conn) (rcode : String)
    (new_version : Rat) (panel_id : Int)
    (hclean : c.pending = c.committed)
    (hnone : ∀ r ∈ c.committed.panel, ¬(r.panel_id = panel_id ∧ r.rcodes = rcode)) :
    Update.update_panels_version c rcode new_version panel_id = (c, ()) := by
  obtain ⟨co, pe⟩ := c
  simp only at hclean hnone
  subst hclean
  simp only [Update.update_panels_version, commit]
  have hmap : pe.panel.map (fun r =>
      if r.panel_id = panel_id ∧ r.rcodes = rcode then
        PanelRow.mk panel_id rcode new_version
      else r) = pe.panel := by
    have hid : ∀ r ∈ pe.panel, (if r.panel_id = panel_id ∧ r.rcodes = rcode then
        PanelRow.mk panel_id rcode new_version else r) = r := by
      intro r hr
      rw [if_neg (hnone r hr)]
    calc pe.panel.map (fun r =>
          if r.panel_id = panel_id ∧ r.rcodes = rcode then
            PanelRow.mk panel_id rcode new_version
          else r)
        = pe.panel.map id := List.map_congr_left hid
      _ = pe.panel := List.map_id pe.panel
  rw [hmap]

/-- Witness for the amended C7 theorem on the empty database. -/
theorem update_panels_version_no_match_amended_witness :
    Update.update_panels_version (connOf stateEmpty) "R1" v30 1 = (connOf stateEmpty, ()) :=
  update_panels_version_no_match_amended (connOf stateEmpty) "R1" v30 1 rfl (by decide)

/-- C9: `get_gene_list` is not total at its public interface.  Whenever both
`panel_id` and `r_code` are absent or falsy (for example a call with no
arguments), neither branch assigns the local `gene_query`, and the trailing
read of `gene_query` raises UnboundLocalError; the call neither returns a
gene set nor a structured not-found message. -/
theorem get_gene_list_unbound_local (s : DBState) (panel_id : Option Int)
    (r_code : Option String) (matchesArg : Bool)
    (hp : Query.truthyInt panel_id = false)
    (hr : Query.truthyStr r_code = false) :
    Query.get_gene_list s panel_id r_code matchesArg = .error .unboundLocal ∧
    (∀ gs, Query.get_gene_list s panel_id r_code matchesArg ≠ .ok (.genes gs)) ∧
    Query.get_gene_list s panel_id r_code matchesArg ≠ .ok .message := by
  have h1 : Query.get_gene_list s panel_id r_code matchesArg = .error .unboundLocal := by
    simp [Query.get_gene_list, hp, hr]
  refine ⟨h1, fun gs => ?_, ?_⟩
  · rw [h1]
    simp
  · rw [h1]
    simp

/-- Witness for the C9 theorem: the call with both arguments absent. -/
theorem get_gene_list_unbound_local_witness :
    Query.get_gene_list stateEmpty none none false = .error .unboundLocal :=
  (get_gene_list_unbound_local stateEmpty none none false rfl rfl).1

/-- Projecting the pair list produced by the added/removed passes of
`compare_panel_versions` to keys yields the corresponding key filter,
provided every iterated key can be looked up in the value dict. -/
theorem keys_filterMap_lookup {β γ : Type} (l : List Gene) (cond : List (Gene × γ))
    (vals : List (Gene × β))
    (hmem : ∀ g ∈ l, (dlookup vals g).isSome) :
    (l.filterMap (fun gene =>
        if (dlookup cond gene).isSome then none
        else (dlookup vals gene).map (fun c => (gene, c)))).map Prod.fst =
      l.filter (fun gene => !(dlookup cond gene).isSome) := by
  induction l with
  | nil => simp
  | cons a t ih =>
    have ha := hmem a (List.mem_cons_self a t)
    have ht : ∀ g ∈ t, (dlookup vals g).isSome := fun g hg =>
      hmem g (List.mem_cons_of_mem a hg)
    cases hca : dlookup cond a with
    | some cc => simp [List.filterMap_cons, hca, List.filter_cons, ih ht]
    | none =>
      obtain ⟨cv, hcv⟩ := Option.isSome_iff_exists.mp ha
      simp [List.filterMap_cons, hca, hcv, List.filter_cons, ih ht]

/-- Membership characterization of the confidence-change list computed by
Downgrade.change_gene_contents. -/
theorem mem_delta_changes (cur : GeneMap) (new_genes : List (Gene × Conf))
    (g : Gene) (oc nc : Conf) :
    (g, (oc, nc)) ∈ (Downgrade.gene_content_delta cur new_genes).2.2 ↔
      dlookup cur g = some oc ∧ dlookup (pyDict new_genes) g = some nc ∧ oc ≠ nc := by
  simp only [Downgrade.gene_content_delta, List.mem_filterMap]
  constructor
  · rintro ⟨a, _ha, hfa⟩
    cases hnd : dlookup (pyDict new_genes) a with
    | none => rw [hnd] at hfa; simp at hfa
    | some ncv =>
      cases hcv : dlookup cur a with
      | none => rw [hnd, hcv] at hfa; simp at hfa
      | some ocv =>
        rw [hnd, hcv] at hfa
        by_cases heq : ocv = ncv
        · simp [heq] at hfa
        · simp only [heq, if_false] at hfa
          rw [Option.some.injEq, Prod.mk.injEq] at hfa
          obtain ⟨rfl, hfa2⟩ := hfa
          rw [Prod.mk.injEq] at hfa2
          obtain ⟨rfl, rfl⟩ := hfa2
          exact ⟨hcv, hnd, heq⟩
  · rintro ⟨hc, hn, hne⟩
    refine ⟨g, ?_, ?_⟩
    · rw [← dlookup_isSome_iff]
      simp [hc]
    · rw [hc, hn]
      simp [hne]

/-- C8: the Downgrade component's delta computation agrees with the Query
component's comparison algorithm.  For every current gene-to-confidence
mapping and every extracted `(HGNC_ID, Confidence)` pair list, the genes
that `change_gene_contents` classifies as added and removed are exactly the
key lists of the added and removed collections of `compare_panel_versions`
applied to the current mapping (as old) and the extracted pairs viewed as a
dict (as new), and an entry `(gene, old confidence, new confidence)` is in
its confidence-change list iff it is in the changed collection of
`compare_panel_versions`. -/
theorem downgrade_delta_agrees_compare (current_genes : GeneMap)
    (new_genes : List (Gene × Conf)) :
    (Downgrade.gene_content_delta current_genes new_genes).1 =
      keys (Query.compare_panel_versions current_genes (pyDict new_genes)).1 ∧
    (Downgrade.gene_content_delta current_genes new_genes).2.1 =
      keys (Query.compare_panel_versions current_genes (pyDict new_genes)).2.1 ∧
    (∀ g oc nc,
      (g, (oc, nc)) ∈ (Downgrade.gene_content_delta current_genes new_genes).2.2 ↔
      (g, (oc, nc)) ∈
        (Query.compare_panel_versions current_genes (pyDict new_genes)).2.2) := by
  refine ⟨?_, ?_, ?_⟩
  · simp only [Downgrade.gene_content_delta, Query.compare_panel_versions, keys]
    exact (keys_filterMap_lookup _ current_genes (pyDict new_genes)
      (fun g hg => (dlookup_isSome_iff _ g).mpr hg)).symm
  · simp only [Downgrade.gene_content_delta, Query.compare_panel_versions, keys]
    exact (keys_filterMap_lookup _ (pyDict new_genes) current_genes
      (fun g hg => (dlookup_isSome_iff _ g).mpr hg)).symm
  · intro g oc nc
    rw [mem_delta_changes, mem_conf_changes]

/-- The delta of Downgrade.change_gene_contents is empty when the extracted
pairs and the current contents agree as mappings. -/
theorem gene_content_delta_nil (cur : GeneMap) (new_genes : List (Gene × Conf))
    (hsame : ∀ g, dlookup (pyDict new_genes) g = dlookup cur g) :
    Downgrade.gene_content_delta cur new_genes = ([], [], []) := by
  simp only [Downgrade.gene_content_delta]
  rw [Prod.mk.injEq, Prod.mk.injEq]
  refine ⟨?_, ?_, ?_⟩
  · rw [List.filter_eq_nil_iff]
    intro h hh habs
    have hsome : (dlookup (pyDict new_genes) h).isSome :=
      (dlookup_isSome_iff _ h).mpr hh
    rw [hsame h] at hsome
    rw [hsome] at habs
    simp at habs
  · rw [List.filter_eq_nil_iff]
    intro h hh habs
    have hsome : (dlookup cur h).isSome := (dlookup_isSome_iff _ h).mpr hh
    rw [← hsame h] at hsome
    rw [hsome] at habs
    simp at habs
  · rw [List.filterMap_eq_nil_iff]
    intro h hh
    obtain ⟨oc, hoc⟩ := Option.isSome_iff_exists.mp ((dlookup_isSome_iff cur h).mpr hh)
    have hnd : dlookup (pyDict new_genes) h = some oc := by rw [hsame h, hoc]
    rw [hnd, hoc]
    simp

/-- C10: when the gene set extracted from the downgrade payload is identical
(same genes, same confidences) to the current panel_genes contents for the
panel, `process_downgrade` returns the 'No changes detected between
versions' result and performs no delete or insert on panel_genes (the table
and the archive are untouched), yet the Panel row's Version has been updated
to the requested version and this change is committed. -/
theorem process_downgrade_version_change_on_no_changes (c : Conn) (rcode : String)
    (panel_id : Int) (version : Rat) (panel_records : List RawGene)
    (hclean : c.pending = c.committed)
    (hrow : ∃ r ∈ c.committed.panel, r.panel_id = panel_id ∧ r.rcodes = rcode)
    (hsame : ∀ g, dlookup (pyDict (Downgrade.extract_genes_from_records panel_records)) g =
      dlookup (Downgrade.get_current_genes c.committed panel_id) g) :
    (Downgrade.process_downgrade c false rcode panel_id version panel_records).2 =
      .ok (Downgrade.DowngradeResult.mk panel_id rcode
        (Query.get_db_latest_version c.committed rcode) version .noChanges) ∧
    (Downgrade.process_downgrade c false rcode panel_id version
        panel_records).1.committed.panel_genes = c.committed.panel_genes ∧
    (Downgrade.process_downgrade c false rcode panel_id version
        panel_records).1.committed.panel_genes_archive =
      c.committed.panel_genes_archive ∧
    (Downgrade.process_downgrade c false rcode panel_id version
        panel_records).1.committed.panel =
      c.committed.panel.map (fun r =>
        if r.panel_id = panel_id ∧ r.rcodes = rcode then { r with version := version }
        else r) ∧
    (∃ r ∈ (Downgrade.process_downgrade c false rcode panel_id version
        panel_records).1.committed.panel,
      r.panel_id = panel_id ∧ r.rcodes = rcode ∧ r.version = version) ∧
    (Downgrade.process_downgrade c false rcode panel_id version
        panel_records).1.pending =
      (Downgrade.process_downgrade c false rcode panel_id version
        panel_records).1.committed := by
  obtain ⟨co, pe⟩ := c
  simp only at hclean hrow hsame
  subst hclean
  obtain ⟨r, hrmem, hrp⟩ := hrow
  have hlen : ¬ (pe.panel.filter (fun r =>
      decide (r.panel_id = panel_id ∧ r.rcodes = rcode))).length = 0 := by
    intro h0
    rw [List.length_eq_zero, List.filter_eq_nil_iff] at h0
    exact h0 r hrmem (by simp [hrp.1, hrp.2])
  have h1 : Downgrade.change_panels_version pe rcode version panel_id =
      .ok { pe with panel := pe.panel.map (fun r =>
        if r.panel_id = panel_id ∧ r.rcodes = rcode then { r with version := version }
        else r) } := by
    simp only [Downgrade.change_panels_version]
    rw [if_neg hlen]
  have h2 : Downgrade.change_gene_contents
      { pe with panel := pe.panel.map (fun r =>
        if r.panel_id = panel_id ∧ r.rcodes = rcode then { r with version := version }
        else r) } false panel_id (Downgrade.extract_genes_from_records panel_records) =
      .ok ({ pe with panel := pe.panel.map (fun r =>
        if r.panel_id = panel_id ∧ r.rcodes = rcode then { r with version := version }
        else r) }, .noChanges) := by
    have hdelta := gene_content_delta_nil (Downgrade.get_current_genes pe panel_id)
      (Downgrade.extract_genes_from_records panel_records) hsame
    simp only [Downgrade.change_gene_contents]
    rw [show Downgrade.get_current_genes { pe with panel := pe.panel.map (fun r =>
        if r.panel_id = panel_id ∧ r.rcodes = rcode then { r with version := version }
        else r) } panel_id = Downgrade.get_current_genes pe panel_id from rfl]
    rw [hdelta]
    simp
  have hres : Downgrade.process_downgrade (Conn.mk pe pe) false rcode panel_id version
      panel_records =
      (Conn.mk
        { pe with panel := pe.panel.map (fun r =>
          if r.panel_id = panel_id ∧ r.rcodes = rcode then { r with version := version }
          else r) }
        { pe with panel := pe.panel.map (fun r =>
          if r.panel_id = panel_id ∧ r.rcodes = rcode then { r with version := version }
          else r) },
       .ok (Downgrade.DowngradeResult.mk panel_id rcode
        (Query.get_db_latest_version pe rcode) version .noChanges)) := by
    simp only [Downgrade.process_downgrade, h1, h2]
    rfl
  rw [hres]
  refine ⟨rfl, rfl, rfl, rfl, ?_, rfl⟩
  refine ⟨{ r with version := version }, ?_, ?_⟩
  · exact List.mem_map.mpr ⟨r, hrmem, by rw [if_pos ⟨hrp.1, hrp.2⟩]⟩
  · exact ⟨hrp.1, hrp.2, rfl⟩

/-- Witness for the C10 theorem: downgrading panel 100001 to version 2.0
with a payload identical to the live contents reports no changes yet commits
the version change. -/
theorem process_downgrade_version_change_witness :
    (Downgrade.process_downgrade (connOf stateD) false "R999.01" 100001 v20 recordsD).2 =
      .ok (Downgrade.DowngradeResult.mk 100001 "R999.01"
        (Query.get_db_latest_version stateD "R999.01") v20 .noChanges) ∧
    (Downgrade.process_downgrade (connOf stateD) false "R999.01" 100001 v20
        recordsD).1.committed.panel_genes = stateD.panel_genes ∧
    (Downgrade.process_downgrade (connOf stateD) false "R999.01" 100001 v20
        recordsD).1.committed.panel_genes_archive = stateD.panel_genes_archive ∧
    (Downgrade.process_downgrade (connOf stateD) false "R999.01" 100001 v20
        recordsD).1.committed.panel =
      stateD.panel.map (fun r =>
        if r.panel_id = 100001 ∧ r.rcodes = "R999.01" then { r with version := v20 }
        else r) ∧
    (∃ r ∈ (Downgrade.process_downgrade (connOf stateD) false "R999.01" 100001 v20
        recordsD).1.committed.panel,
      r.panel_id = 100001 ∧ r.rcodes = "R999.01" ∧ r.version = v20) ∧
    (Downgrade.process_downgrade (connOf stateD) false "R999.01" 100001 v20
        recordsD).1.pending =
      (Downgrade.process_downgrade (connOf stateD) false "R999.01" 100001 v20
        recordsD).1.committed :=
  process_downgrade_version_change_on_no_changes (connOf stateD) "R999.01" 100001 v20
    recordsD rfl ⟨PanelRow.mk 100001 "R999.01" v25, by decide, by decide⟩ (fun _ => rfl)

end Vimmo
